import Mathlib

/-!
# Verification of `main.js` (Funngro Teen landing page)

A shallow embedding of the interactive logic of `src/main.js`, together with
theorems settling the specification's claims about it.

Conventions of the embedding:
* JS strings are Lean `String`s; `String.prototype.trim` is `jsTrim`,
  `parseInt(s, 10)` is `jsParseInt` (returning `none` for `NaN`).
* Values read from `FormData` (`fd.get(...)`) are `Option String`
  (`none` models a missing field / `null`).
* Times are naturals (milliseconds on the page's clock); timer callbacks are
  modelled as firing exactly at their scheduled instant.
* Stateful routines become explicit state records plus step functions; event
  sequences are `List`s folded through the step function.
-/

namespace Funngro

/-- JS `String.prototype.trim`: drop whitespace from both ends. -/
def jsTrim (s : String) : String :=
  String.mk (((s.data.dropWhile Char.isWhitespace).reverse.dropWhile
    Char.isWhitespace).reverse)

/-- The longest digit run at the head of the character list, as a number;
`none` when there is no leading digit (`parseInt` would give `NaN`). -/
def leadingDigits (l : List Char) : Option Nat :=
  let ds := l.takeWhile Char.isDigit
  if ds.isEmpty then none
  else some (ds.foldl (fun a c => a * 10 + (c.toNat - 48)) 0)

/-- JS `parseInt(s, 10)`: skip leading whitespace, optional sign, then the
longest digit run; `none` models `NaN`. -/
def jsParseInt (s : String) : Option Int :=
  let cs := s.data.dropWhile Char.isWhitespace
  match cs with
  | '-' :: r => (leadingDigits r).map (fun n => -(Int.ofNat n))
  | '+' :: r => (leadingDigits r).map Int.ofNat
  | _ => (leadingDigits cs).map Int.ofNat

/-- `parseInt` applied to a nullable form value: `parseInt(null, 10)` parses
the string `"null"`, which is `NaN`, so `none` maps to `none`. -/
def jsParseIntOpt : Option String → Option Int
  | none => none
  | some s => jsParseInt s

/-! ## Testimonial rotator (`setupTestimonials`, main.js lines 31-64) -/

structure Testimonial where
  text : String
  author : String
deriving DecidableEq, Repr

/-- The fixed testimonial list from main.js lines 31-35. -/
def testimonials : List Testimonial :=
  [⟨"I earned my first ₹2000 within a week. Best platform for teens!", "— Aarav, 16"⟩,
   ⟨"Work is simple & flexible. Perfect for students.", "— Sana, 17"⟩,
   ⟨"Funngro helped me improve my writing & earn consistently.", "— Rohan, 15"⟩]

/-- Rotator state: the stored next index `idx` and the currently displayed
testimonial (the `textContent` of the review element). -/
structure RotState where
  idx : Nat
  shown : Testimonial
deriving DecidableEq, Repr

/-- `set(i)` from `setupTestimonials`: display `testimonials[i % length]` and
store `idx = (i + 1) % length`. -/
def rotSet (i : Nat) : RotState :=
  ⟨(i + 1) % testimonials.length,
   testimonials.getD (i % testimonials.length) ⟨"", ""⟩⟩

/-- One interval tick: the timer callback runs `set(idx)`. -/
def rotTick (s : RotState) : RotState := rotSet s.idx

/-! ## Scroll reveal (`setupScrollReveal`, main.js lines 69-93) -/

/-- Per-element reveal state: whether the `active` class is present and
whether the element is still observed by the `IntersectionObserver`
(configured with threshold 0.12). -/
structure RevealState where
  active : Bool
  observed : Bool
deriving DecidableEq, Repr

/-- The observer callback for one entry delivered for an element: if the
element is still observed and the entry is intersecting, add `active` and
`unobserve` the element; otherwise (not intersecting, or no longer
observed so no callback is delivered at all) nothing changes. -/
def revealStep (s : RevealState) (isIntersecting : Bool) : RevealState :=
  if s.observed then
    if isIntersecting then ⟨true, false⟩ else s
  else s

/-! ## Throttle (`throttle`, main.js lines 166-187)

The returned closure keeps `last` (time of the last execution, initially 0)
and `timer` (a pending trailing `setTimeout`, modelled as its fire time,
which the code computes as `t + remaining = last + wait`, together with the
arguments captured when it was scheduled). -/

structure ThrottleState (A : Type) where
  last : Nat
  timer : Option (Nat × A)
deriving DecidableEq, Repr

/-- One invocation of the throttled closure at time `t` with arguments
`args`: if `remaining = wait - (t - last) ≤ 0` (i.e. `last + wait ≤ t`),
any pending timer is cleared and `fn` runs immediately; otherwise, if no
timer is pending, one is scheduled for `last + wait` capturing `args`;
otherwise the call is dropped. Returns the new state and the immediately
executed arguments, if any. -/
def throttleCall {A : Type} (wait : Nat) (s : ThrottleState A) (t : Nat)
    (args : A) : ThrottleState A × Option A :=
  if s.last + wait ≤ t then
    (⟨t, none⟩, some args)
  else
    match s.timer with
    | none => (⟨s.last, some (s.last + wait, args)⟩, none)
    | some _ => (s, none)

/-- Fire the pending trailing timer if its scheduled time is at or before
`t` (the timer callback sets `last = now()` and clears `timer`). Returns
the new state and the execution it performed, as a (time, args) pair. -/
def fireDue {A : Type} (s : ThrottleState A) (t : Nat) :
    ThrottleState A × List (Nat × A) :=
  match s.timer with
  | some (ft, b) => if ft ≤ t then (⟨ft, none⟩, [(ft, b)]) else (s, [])
  | none => (s, [])

/-- Run the throttled closure over a time-ordered list of calls
`(time, args)`, firing the pending timer before any call scheduled at or
after its fire time, and letting a still-pending timer fire after the last
call. Returns the list of executions of `fn` as (time, args) pairs. -/
def runThrottle {A : Type} (wait : Nat) (s : ThrottleState A) :
    List (Nat × A) → List (Nat × A)
  | [] =>
    match s.timer with
    | some p => [p]
    | none => []
  | (t, a) :: rest =>
    let f := fireDue s t
    let r := throttleCall wait f.1 t a
    f.2 ++ (match r.2 with | some x => [(t, x)] | none => []) ++
      runThrottle wait r.1 rest

/-! ## Email pattern (`/^\S+@\S+\.\S+$/`, main.js line 356) -/

/-- `\S`: a non-whitespace character. -/
def nonWS (c : Char) : Bool := !c.isWhitespace

/-- All ways of cutting a list in two: `(take i, drop i)` for `0 ≤ i ≤ n`. -/
def splitsList (l : List Char) : List (List Char × List Char) :=
  (List.range (l.length + 1)).map (fun i => (l.take i, l.drop i))

/-- Matcher for the suffix `\.\S+$` of the regex. -/
def emailTail2 (r : List Char) : Bool :=
  match r with
  | '.' :: c => (!c.isEmpty) && c.all nonWS
  | _ => false

/-- Matcher for the suffix `@\S+\.\S+$` of the regex. -/
def emailTail1 (r : List Char) : Bool :=
  match r with
  | '@' :: r2 =>
    (splitsList r2).any (fun br => (!br.1.isEmpty) && br.1.all nonWS && emailTail2 br.2)
  | _ => false

/-- The test `/^\S+@\S+\.\S+$/.test(s)`: the string splits into a
non-empty `\S` run, `@`, a non-empty `\S` run, `.`, a non-empty `\S` run. -/
def emailMatch (s : String) : Bool :=
  (splitsList s.data).any (fun ar => (!ar.1.isEmpty) && ar.1.all nonWS && emailTail1 ar.2)

/-- The spec's pattern `nonwhitespace@nonwhitespace.nonwhitespace`, stated
declaratively: some decomposition of the string into three non-empty
all-non-whitespace segments separated by a literal `@` and a literal `.`,
in that order. -/
def SpecEmailPat (s : String) : Prop :=
  ∃ a b c : List Char,
    a ≠ [] ∧ b ≠ [] ∧ c ≠ [] ∧
    a.all nonWS = true ∧ b.all nonWS = true ∧ c.all nonWS = true ∧
    s.data = a ++ '@' :: (b ++ '.' :: c)

/-! ## Form validation (`validateForm`, main.js lines 351-358) -/

/-- The `payload` object built in the submit handler: `name` and `email`
are `fd.get(...)?.trim()`, `age` is the raw `fd.get("age")` value. -/
structure Payload where
  name : Option String
  age : Option String
  email : Option String
deriving DecidableEq, Repr

/-- `!data.name || data.name.trim().length < 2` (JS falsiness of a string
is emptiness; a missing value is falsy). -/
def nameBad : Option String → Bool
  | none => true
  | some s => (s == "") || decide ((jsTrim s).length < 2)

/-- `const age = parseInt(data.age, 10); !age || age < 13 || age > 19`
(`NaN` and `0` are falsy). -/
def ageBad (ageField : Option String) : Bool :=
  match jsParseIntOpt ageField with
  | none => true
  | some a => (a == 0) || decide (a < 13) || decide (19 < a)

/-- `data.email && !/^\S+@\S+\.\S+$/.test(data.email)`. -/
def emailBad (emailField : Option String) : Bool :=
  match emailField with
  | none => false
  | some s => (!(s == "")) && (!(emailMatch s))

def nameMsg : String := "Please enter a valid name."

def ageMsg : String := "Age must be between 13 and 19."

def emailMsg : String := "If provided, email must be valid."

/-- `validateForm(data)`: the accumulated error list, in push order. -/
def validateForm (d : Payload) : List String :=
  (if nameBad d.name then [nameMsg] else []) ++
  (if ageBad d.age then [ageMsg] else []) ++
  (if emailBad d.email then [emailMsg] else [])

/-! ## Timestamps (`new Date().toISOString()`) -/

def pad2 (n : Nat) : String :=
  if n < 10 then "0" ++ toString n else toString n

def pad3 (n : Nat) : String :=
  if n < 10 then "00" ++ toString n
  else if n < 100 then "0" ++ toString n
  else toString n

def pad4 (n : Nat) : String :=
  if n < 10 then "000" ++ toString n
  else if n < 100 then "00" ++ toString n
  else if n < 1000 then "0" ++ toString n
  else toString n

/-- Proleptic-Gregorian civil date from a day count whose zero is
0000-03-01 (the standard era-based algorithm); returns (year, month, day). -/
def civilFromDays (z : Nat) : Nat × Nat × Nat :=
  let era := z / 146097
  let doe := z % 146097
  let yoe := (doe - doe / 1460 + doe / 36524 - doe / 146096) / 365
  let y := yoe + era * 400
  let doy := doe - (365 * yoe + yoe / 4 - yoe / 100)
  let mp := (5 * doy + 2) / 153
  let d := doy - (153 * mp + 2) / 5 + 1
  let m := if mp < 10 then mp + 3 else mp - 9
  (if m ≤ 2 then y + 1 else y, m, d)

/-- `Date.prototype.toISOString` for a non-negative epoch-millisecond
timestamp: `YYYY-MM-DDTHH:MM:SS.sssZ` in UTC. -/
def toISOString (ms : Nat) : String :=
  let days := ms / 86400000
  let rem := ms % 86400000
  let ymd := civilFromDays (days + 719468)
  pad4 ymd.1 ++ "-" ++ pad2 ymd.2.1 ++ "-" ++ pad2 ymd.2.2 ++ "T" ++
  pad2 (rem / 3600000) ++ ":" ++ pad2 (rem % 3600000 / 60000) ++ ":" ++
  pad2 (rem % 60000 / 1000) ++ "." ++ pad3 (rem % 1000) ++ "Z"

/-! ## Submit handler (form "submit" listener, main.js lines 360-387) -/

/-- The record persisted under the storage key:
`{ name: payload.name, joinedAt: new Date().toISOString() }`. -/
structure JoinRecord where
  name : String
  joinedAt : String
deriving DecidableEq, Repr

/-- The observable effects of one run of the submit handler:
the feedback text set synchronously and whether the `error` class is added;
the storage write (time and record) performed by the 900 ms callback, if
any; the confirmation feedback set by that same callback, if any; and the
time at which the nested 1400 ms callback closes the modal, if any. -/
structure SubmitEffects where
  feedback : String
  feedbackError : Bool
  write : Option (Nat × JoinRecord)
  confirm : Option (Nat × String)
  closeAt : Option Nat
deriving DecidableEq, Repr

/-- The submit handler, run at time `t` on payload `p`: on any validation
error, show the space-joined errors and stop (no write, no close); on
success, show "Submitting...", then at `t + 900` write the join record
(payload name, ISO timestamp of the write instant) and show the welcome
message, and at `t + 900 + 1400` close the modal. -/
def submitHandler (t : Nat) (p : Payload) : SubmitEffects :=
  let errors := validateForm p
  if errors.isEmpty then
    { feedback := "Submitting...", feedbackError := false,
      write := some (t + 900, ⟨p.name.getD "", toISOString (t + 900)⟩),
      confirm := some (t + 900, "Welcome aboard! Check your dashboard for gigs."),
      closeAt := some (t + 900 + 1400) }
  else
    { feedback := String.intercalate " " errors, feedbackError := true,
      write := none, confirm := none, closeAt := none }

/-- The raw form values as read from `FormData` (missing field = `none`). -/
structure RawForm where
  name : Option String
  age : Option String
  email : Option String
deriving DecidableEq, Repr

/-- Building the payload from the form:
`{ name: fd.get("name")?.trim(), age: fd.get("age"), email: fd.get("email")?.trim() }`. -/
def buildPayload (f : RawForm) : Payload :=
  ⟨f.name.map jsTrim, f.age, f.email.map jsTrim⟩

/-! ## CTA modal gating (`setupCTAModal`, main.js lines 263-345) -/

/-- Observable modal-gating state: whether `setupCTAModal` constructed the
modal (and registered its listeners), the `shown` guard flag, how many
times `openModal` has run, and whether the 6000 ms show timer is still
pending (not yet fired, not cleared). -/
structure CTAState where
  constructed : Bool
  shown : Bool
  openCount : Nat
  timedActive : Bool
deriving DecidableEq, Repr

/-- `setupCTAModal`: if a join record is present in storage, return
immediately (nothing constructed, no listeners, no timer); otherwise build
the modal, with the `shown` flag false and the 6000 ms timer scheduled. -/
def setupCTAModal (storage : Option JoinRecord) : CTAState :=
  if storage.isSome then ⟨false, false, 0, false⟩
  else ⟨true, false, 0, true⟩

/-- `showAfter`: re-read storage; if already shown or a join record now
exists, do nothing; otherwise set `shown` and open the modal. -/
def showAfter (storage : Option JoinRecord) (s : CTAState) : CTAState :=
  if s.shown || storage.isSome then s
  else { s with shown := true, openCount := s.openCount + 1 }

/-- Events that can reach the modal gating logic: the 6000 ms timer firing,
or a (throttled) scroll event observing `scrollY = y` and
`innerHeight = h`. -/
inductive CTAEvent
  | timeout
  | scroll (y h : Nat)
deriving DecidableEq, Repr

/-- One event against the gating logic, with `storage` the content of
storage at that moment. If the modal was never constructed there are no
listeners and nothing happens. The timer firing consumes the timer and
calls `showAfter`; a scroll event past 45% of the viewport height
(`scrollY > innerHeight * 0.45`, i.e. `45 * h < 100 * y`) clears the timer
and calls `showAfter`; other scrolls do nothing. -/
def ctaStep (storage : Option JoinRecord) (s : CTAState) (e : CTAEvent) :
    CTAState :=
  if s.constructed then
    match e with
    | CTAEvent.timeout =>
      if s.timedActive then showAfter storage { s with timedActive := false }
      else s
    | CTAEvent.scroll y h =>
      if 45 * h < 100 * y then showAfter storage { s with timedActive := false }
      else s
  else s

/-- A whole page load with a fixed storage content: set up, then process
the events in order. -/
def runCTA (storage : Option JoinRecord) (evs : List CTAEvent) : CTAState :=
  evs.foldl (ctaStep storage) (setupCTAModal storage)

/-- Whether an event is a show trigger: the timer firing, or a scroll past
45% of the viewport height. -/
def ctaTrig : CTAEvent → Bool
  | CTAEvent.timeout => true
  | CTAEvent.scroll y h => decide (45 * h < 100 * y)

/-! ## Helper lemmas -/

lemma ctaStep_suppressed (st : Option JoinRecord) (e : CTAEvent) :
    ctaStep st ⟨false, false, 0, false⟩ e = ⟨false, false, 0, false⟩ := by
  cases e <;> simp [ctaStep]

lemma ctaStep_shown_fixed (e : CTAEvent) :
    ctaStep none ⟨true, true, 1, false⟩ e = ⟨true, true, 1, false⟩ := by
  cases e <;> simp only [ctaStep, showAfter] <;> simp

lemma ctaFold_shown (evs : List CTAEvent) :
    evs.foldl (ctaStep none) ⟨true, true, 1, false⟩ = ⟨true, true, 1, false⟩ := by
  induction evs with
  | nil => rfl
  | cons e rest ih => rw [List.foldl_cons, ctaStep_shown_fixed]; exact ih

lemma ctaStep_fresh (e : CTAEvent) :
    ctaStep none ⟨true, false, 0, true⟩ e =
      if ctaTrig e then ⟨true, true, 1, false⟩ else ⟨true, false, 0, true⟩ := by
  cases e <;> simp [ctaStep, ctaTrig, showAfter]

lemma ctaFold_fresh (evs : List CTAEvent) :
    evs.foldl (ctaStep none) ⟨true, false, 0, true⟩ =
      if evs.any ctaTrig then ⟨true, true, 1, false⟩ else ⟨true, false, 0, true⟩ := by
  induction evs with
  | nil => rfl
  | cons e rest ih =>
    rw [List.foldl_cons, ctaStep_fresh]
    by_cases h : ctaTrig e = true
    · simp [h, ctaFold_shown]
    · simp [h, ih]

lemma any_splitsList {l : List Char} {P : List Char × List Char → Bool} :
    (splitsList l).any P = true ↔ ∃ a b, l = a ++ b ∧ P (a, b) = true := by
  simp only [splitsList, List.any_eq_true, List.mem_map, List.mem_range]
  constructor
  · rintro ⟨pq, ⟨i, hi, rfl⟩, hP⟩
    exact ⟨l.take i, l.drop i, (List.take_append_drop i l).symm, hP⟩
  · rintro ⟨a, b, rfl, hP⟩
    refine ⟨(a, b), ⟨a.length, ?_, ?_⟩, hP⟩
    · simp only [List.length_append]; omega
    · simp [List.take_left, List.drop_left]

lemma emailTail2_iff (r : List Char) :
    emailTail2 r = true ↔
      ∃ c, r = '.' :: c ∧ c ≠ [] ∧ c.all nonWS = true := by
  unfold emailTail2
  split
  · rename_i c
    simp only [Bool.and_eq_true, Bool.not_eq_true', List.isEmpty_eq_false]
    constructor
    · rintro ⟨hc, hall⟩
      exact ⟨c, rfl, hc, hall⟩
    · rintro ⟨c2, heq, hc, hall⟩
      cases heq
      exact ⟨hc, hall⟩
  · rename_i hno
    refine iff_of_false (by simp) ?_
    rintro ⟨c, rfl, -, -⟩
    exact hno c rfl

lemma emailTail1_iff (r : List Char) :
    emailTail1 r = true ↔
      ∃ b c, r = '@' :: (b ++ '.' :: c) ∧ b ≠ [] ∧ c ≠ [] ∧
        b.all nonWS = true ∧ c.all nonWS = true := by
  unfold emailTail1
  split
  · rename_i r2
    rw [any_splitsList]
    constructor
    · rintro ⟨b, r3, rfl, hP⟩
      simp only [Bool.and_eq_true, Bool.not_eq_true', List.isEmpty_eq_false] at hP
      obtain ⟨⟨hb, hball⟩, htail⟩ := hP
      obtain ⟨c, rfl, hc, hcall⟩ := (emailTail2_iff r3).mp htail
      exact ⟨b, c, rfl, hb, hc, hball, hcall⟩
    · rintro ⟨b, c, heq, hb, hc, hball, hcall⟩
      cases heq
      refine ⟨b, '.' :: c, rfl, ?_⟩
      simp only [Bool.and_eq_true, Bool.not_eq_true', List.isEmpty_eq_false]
      exact ⟨⟨hb, hball⟩, (emailTail2_iff ('.' :: c)).mpr ⟨c, rfl, hc, hcall⟩⟩
  · rename_i hno
    refine iff_of_false (by simp) ?_
    rintro ⟨b, c, rfl, -, -, -, -⟩
    exact hno (b ++ '.' :: c) rfl

/-- The hand-written matcher `emailMatch` recognises exactly the strings
admitting a decomposition `nonwhitespace@nonwhitespace.nonwhitespace`,
i.e. the language of the source regex `/^\S+@\S+\.\S+$/`. -/
lemma emailMatch_iff (s : String) : emailMatch s = true ↔ SpecEmailPat s := by
  unfold emailMatch SpecEmailPat
  rw [any_splitsList]
  constructor
  · rintro ⟨a, r, hsplit, hP⟩
    simp only [Bool.and_eq_true, Bool.not_eq_true', List.isEmpty_eq_false] at hP
    obtain ⟨⟨ha, haall⟩, htail⟩ := hP
    obtain ⟨b, c, rfl, hb, hc, hball, hcall⟩ := (emailTail1_iff r).mp htail
    exact ⟨a, b, c, ha, hb, hc, haall, hball, hcall, hsplit⟩
  · rintro ⟨a, b, c, ha, hb, hc, haall, hball, hcall, heq⟩
    refine ⟨a, '@' :: (b ++ '.' :: c), heq, ?_⟩
    simp only [Bool.and_eq_true, Bool.not_eq_true', List.isEmpty_eq_false]
    exact ⟨⟨ha, haall⟩,
      (emailTail1_iff ('@' :: (b ++ '.' :: c))).mpr ⟨b, c, rfl, hb, hc, hball, hcall⟩⟩

/-! ## Claim theorems -/

/-- Claim C9: reveal is one-shot per element. The first intersecting entry
for an element still under observation marks it revealed (class `active`
added) and cancels observation; after that, any further sequence of
intersection events leaves the state unchanged — the element never returns
to hidden. -/
theorem reveal_one_shot (a : Bool) (evs : List Bool) :
    revealStep ⟨a, true⟩ true = ⟨true, false⟩ ∧
    evs.foldl revealStep (revealStep ⟨a, true⟩ true) = ⟨true, false⟩ := by
  have h1 : revealStep ⟨a, true⟩ true = ⟨true, false⟩ := by simp [revealStep]
  refine ⟨h1, ?_⟩
  rw [h1]
  induction evs with
  | nil => rfl
  | cons b rest ih =>
    have hfix : revealStep ⟨true, false⟩ b = ⟨true, false⟩ := by simp [revealStep]
    rw [List.foldl_cons, hfix]; exact ih

/-- Claim C8: the testimonial rotator is cyclic. Starting from the state
produced by `set(i)` (any display index), advancing `N = testimonials.length`
times returns to the same displayed testimonial, indices wrapping modulo the
list length at every step. -/
theorem rotator_cycles (i : Nat) :
    (rotTick^[testimonials.length] (rotSet i)).shown = (rotSet i).shown := by
  have h : testimonials.length = 3 := rfl
  rw [h]
  simp only [Function.iterate_succ_apply, Function.iterate_zero_apply,
    rotTick, rotSet, h]
  congr 1
  omega

/-- Claim C10: when a trigger fires, `showAfter` re-reads storage and
refuses to open the modal if a join record is present at that moment, so
the modal never opens (and the `shown` flag never flips) while a join
record exists — whatever the current state and whichever trigger fires. -/
theorem showAfter_rechecks_storage (r : JoinRecord) (s : CTAState) (e : CTAEvent) :
    (ctaStep (some r) s e).shown = s.shown ∧
    (ctaStep (some r) s e).openCount = s.openCount := by
  have hsa : ∀ x : CTAState, showAfter (some r) x = x := by
    intro x; simp [showAfter]
  cases e <;> by_cases hc : s.constructed <;>
    simp [ctaStep, hc, hsa] <;> split <;> simp

/-- Claim C1: the signup modal's visibility is a pure function of
join-record presence. With a record at startup, `setupCTAModal` constructs
nothing and no event ever opens the modal; with no record, any event
sequence containing a trigger (the 6000 ms timer firing, or a scroll past
45% of viewport height) opens the modal exactly once — the first trigger
shows it and every later trigger is ineffective — while a trigger-free
sequence leaves it unshown with the timer still pending. -/
theorem cta_visibility_gate (r : JoinRecord) (evs evs2 : List CTAEvent) :
    runCTA (some r) evs = ⟨false, false, 0, false⟩ ∧
    (evs2.any ctaTrig = true → runCTA none evs2 = ⟨true, true, 1, false⟩) ∧
    (evs2.any ctaTrig = false → runCTA none evs2 = ⟨true, false, 0, true⟩) := by
  refine ⟨?_, ?_, ?_⟩
  · show evs.foldl (ctaStep (some r)) (setupCTAModal (some r)) = _
    have hsetup : setupCTAModal (some r) = ⟨false, false, 0, false⟩ := by
      simp [setupCTAModal]
    rw [hsetup]
    induction evs with
    | nil => rfl
    | cons e rest ih => rw [List.foldl_cons, ctaStep_suppressed]; exact ih
  · intro h
    show evs2.foldl (ctaStep none) (setupCTAModal none) = _
    rw [show setupCTAModal none = ⟨true, false, 0, true⟩ from rfl, ctaFold_fresh, h]
    rfl
  · intro h
    show evs2.foldl (ctaStep none) (setupCTAModal none) = _
    rw [show setupCTAModal none = ⟨true, false, 0, true⟩ from rfl, ctaFold_fresh, h]
    rfl

theorem cta_visibility_gate_witness :
    runCTA (some ⟨"Asha", "2025-01-01T00:00:00.000Z"⟩)
        [CTAEvent.timeout, CTAEvent.scroll 900 1000] = ⟨false, false, 0, false⟩ ∧
    runCTA none [CTAEvent.scroll 100 1000, CTAEvent.timeout, CTAEvent.timeout] =
      ⟨true, true, 1, false⟩ ∧
    runCTA none [CTAEvent.scroll 100 1000] = ⟨true, false, 0, true⟩ :=
  ⟨(cta_visibility_gate ⟨"Asha", "2025-01-01T00:00:00.000Z"⟩
      [CTAEvent.timeout, CTAEvent.scroll 900 1000]
      [CTAEvent.scroll 100 1000, CTAEvent.timeout, CTAEvent.timeout]).1,
   (cta_visibility_gate ⟨"Asha", "2025-01-01T00:00:00.000Z"⟩
      [CTAEvent.timeout, CTAEvent.scroll 900 1000]
      [CTAEvent.scroll 100 1000, CTAEvent.timeout, CTAEvent.timeout]).2.1 (by decide),
   (cta_visibility_gate ⟨"Asha", "2025-01-01T00:00:00.000Z"⟩
      [CTAEvent.timeout, CTAEvent.scroll 900 1000]
      [CTAEvent.scroll 100 1000]).2.2 (by decide)⟩

/-! ## Throttle lemmas and Claim C3 -/

lemma runThrottle_drop {A : Type} (wait l : Nat) (b : A) (calls : List (Nat × A))
    (h : ∀ p ∈ calls, p.1 < l + wait) :
    runThrottle wait ⟨l, some (l + wait, b)⟩ calls = [(l + wait, b)] := by
  induction calls with
  | nil => rfl
  | cons p rest ih =>
    obtain ⟨t, a⟩ := p
    have ht : t < l + wait := h (t, a) (List.mem_cons_self _ _)
    have h1 : ¬ (l + wait ≤ t) := Nat.not_le.mpr ht
    simp only [runThrottle, fireDue, throttleCall, if_neg h1]
    exact ih (fun q hq => h q (List.mem_cons_of_mem _ hq))

/-- Claim C3 (counterexample to the claim as stated): three calls at times
100, 110, 120 with arguments 10, 20, 30 all fall in the window
[100, 200) of `throttle(fn, 100)` started fresh. `fn` runs immediately at
100 with 10, and the single trailing execution at 200 carries 20 — the
arguments of the second call, not of the final call (30), whose arguments
never reach `fn` at all. -/
theorem throttle_trailing_not_final :
    runThrottle 100 (⟨0, none⟩ : ThrottleState Nat)
        [(100, 10), (110, 20), (120, 30)] = [(100, 10), (200, 20)] ∧
    ∀ e ∈ runThrottle 100 (⟨0, none⟩ : ThrottleState Nat)
        [(100, 10), (110, 20), (120, 30)], e.2 ≠ 30 := by
  decide

/-- Claim C3 (amended): for a burst starting at `t1 ≥ wait` (so the first
call executes immediately) whose remaining calls all arrive before
`t1 + wait`, `fn` executes exactly twice: once immediately at `t1` with the
first call's arguments, and one trailing execution at `t1 + wait` whose
arguments are those of the second call of the burst — the first throttled
call, which armed the trailing timer; all later calls in the window are
dropped without updating the pending arguments. In particular at most one
execution happens per wait-window. -/
theorem throttle_burst_executions {A : Type} (wait t1 t2 : Nat) (x y : A)
    (rest : List (Nat × A)) (h1 : wait ≤ t1) (h2 : t2 < t1 + wait)
    (hrest : ∀ p ∈ rest, p.1 < t1 + wait) :
    runThrottle wait ⟨0, none⟩ ((t1, x) :: (t2, y) :: rest) =
      [(t1, x), (t1 + wait, y)] := by
  have h0 : 0 + wait ≤ t1 := by omega
  have hn : ¬ (t1 + wait ≤ t2) := by omega
  simp only [runThrottle, fireDue, throttleCall, if_pos h0, if_neg hn]
  rw [runThrottle_drop wait t1 y rest hrest]
  rfl

theorem throttle_burst_executions_witness :
    runThrottle 50 (⟨0, none⟩ : ThrottleState Nat) [(60, 7), (70, 8), (80, 9)] =
      [(60, 7), (110, 8)] := by
  rw [throttle_burst_executions 50 60 70 7 8 [(80, 9)] (by decide) (by decide)
    (by decide)]

/-! ## Validation lemmas and Claims C2, C4, C5, C6, C7 -/

lemma validate_mem_name (p : Payload) :
    nameMsg ∈ validateForm p ↔ nameBad p.name = true := by
  cases h1 : nameBad p.name <;> cases h2 : ageBad p.age <;>
    cases h3 : emailBad p.email <;>
      simp [validateForm, h1, h2, h3, nameMsg, ageMsg, emailMsg]

lemma validate_mem_age (p : Payload) :
    ageMsg ∈ validateForm p ↔ ageBad p.age = true := by
  cases h1 : nameBad p.name <;> cases h2 : ageBad p.age <;>
    cases h3 : emailBad p.email <;>
      simp [validateForm, h1, h2, h3, nameMsg, ageMsg, emailMsg]

lemma validate_mem_email (p : Payload) :
    emailMsg ∈ validateForm p ↔ emailBad p.email = true := by
  cases h1 : nameBad p.name <;> cases h2 : ageBad p.age <;>
    cases h3 : emailBad p.email <;>
      simp [validateForm, h1, h2, h3, nameMsg, ageMsg, emailMsg]

lemma submitHandler_of_errors (t : Nat) (p : Payload)
    (h : validateForm p ≠ []) :
    submitHandler t p =
      ⟨String.intercalate " " (validateForm p), true, none, none, none⟩ := by
  have hne : (validateForm p).isEmpty = false := by
    simpa [List.isEmpty_eq_false] using h
  simp [submitHandler, hne]

lemma ageBad_false_iff (o : Option String) :
    ageBad o = false ↔
      ∃ a : Int, jsParseIntOpt o = some a ∧ 13 ≤ a ∧ a ≤ 19 := by
  cases h : jsParseIntOpt o with
  | none => simp [ageBad, h]
  | some a =>
    simp only [ageBad, h, Bool.or_eq_false_iff, decide_eq_false_iff_not,
      beq_eq_false_iff_ne, ne_eq, Option.some.injEq]
    constructor
    · rintro ⟨⟨h0, hlt⟩, hgt⟩
      exact ⟨a, rfl, by omega, by omega⟩
    · rintro ⟨a2, rfl, h13, h19⟩
      refine ⟨⟨by omega, by omega⟩, by omega⟩

lemma nameBad_false_iff (o : Option String) :
    nameBad o = false ↔ ∃ s, o = some s ∧ 2 ≤ (jsTrim s).length := by
  cases o with
  | none => simp [nameBad]
  | some s =>
    simp only [nameBad, Bool.or_eq_false_iff, decide_eq_false_iff_not,
      beq_eq_false_iff_ne, ne_eq, Option.some.injEq]
    constructor
    · rintro ⟨hne, hlen⟩
      exact ⟨s, rfl, by omega⟩
    · rintro ⟨s2, rfl, h2⟩
      refine ⟨?_, by omega⟩
      rintro rfl
      have h0 : (jsTrim "").length = 0 := rfl
      omega

/-- Claim C2: the age rule. If the submitted age field does not parse (via
`parseInt(·, 10)` semantics, so any non-numeric age) to an integer in
[13, 19], the age error message is in the error list and the submit
handler writes no join record; if it parses to an integer in [13, 19],
no age error is produced. -/
theorem age_rule_correct (p : Payload) (t : Nat) :
    ((¬ ∃ a : Int, jsParseIntOpt p.age = some a ∧ 13 ≤ a ∧ a ≤ 19) →
      ageMsg ∈ validateForm p ∧ (submitHandler t p).write = none) ∧
    (∀ a : Int, jsParseIntOpt p.age = some a → 13 ≤ a → a ≤ 19 →
      ageMsg ∉ validateForm p) := by
  constructor
  · intro h
    have hbad : ageBad p.age = true := by
      cases hb : ageBad p.age
      · exact absurd ((ageBad_false_iff _).mp hb) h
      · rfl
    have hmem : ageMsg ∈ validateForm p := (validate_mem_age p).mpr hbad
    refine ⟨hmem, ?_⟩
    have hne : validateForm p ≠ [] := by
      intro he; rw [he] at hmem; exact List.not_mem_nil _ hmem
    rw [submitHandler_of_errors t p hne]
  · intro a ha h13 h19 hmem
    have hb : ageBad p.age = false :=
      (ageBad_false_iff _).mpr ⟨a, ha, h13, h19⟩
    rw [validate_mem_age p, hb] at hmem
    cases hmem

theorem age_rule_correct_witness :
    (ageMsg ∈ validateForm ⟨some "Asha", some "25", none⟩ ∧
      (submitHandler 7 ⟨some "Asha", some "25", none⟩).write = none) ∧
    ageMsg ∉ validateForm ⟨some "Asha", some "15", none⟩ :=
  ⟨(age_rule_correct ⟨some "Asha", some "25", none⟩ 7).1
      (by
        rintro ⟨a, ha, h13, h19⟩
        rw [show jsParseIntOpt (some "25") = some 25 from rfl] at ha
        cases ha
        omega),
   (age_rule_correct ⟨some "Asha", some "15", none⟩ 7).2 15 rfl
      (by decide) (by decide)⟩

/-- Claim C4: the name rule. A missing name, or a name whose trimmed
length is under 2 characters, puts the name error message in the error
list and the submit handler writes no join record; a name of trimmed
length at least 2 produces no name error. -/
theorem name_rule_correct (p : Payload) (t : Nat) :
    ((p.name = none ∨ ∃ s, p.name = some s ∧ (jsTrim s).length < 2) →
      nameMsg ∈ validateForm p ∧ (submitHandler t p).write = none) ∧
    (∀ s, p.name = some s → 2 ≤ (jsTrim s).length →
      nameMsg ∉ validateForm p) := by
  constructor
  · intro h
    have hbad : nameBad p.name = true := by
      cases hb : nameBad p.name
      · obtain ⟨s, hs, h2⟩ := (nameBad_false_iff _).mp hb
        rcases h with hnone | ⟨s2, hs2, hlen⟩
        · rw [hnone] at hs; cases hs
        · rw [hs2] at hs; cases hs; omega
      · rfl
    have hmem : nameMsg ∈ validateForm p := (validate_mem_name p).mpr hbad
    refine ⟨hmem, ?_⟩
    have hne : validateForm p ≠ [] := by
      intro he; rw [he] at hmem; exact List.not_mem_nil _ hmem
    rw [submitHandler_of_errors t p hne]
  · intro s hs h2 hmem
    have hb : nameBad p.name = false :=
      (nameBad_false_iff _).mpr ⟨s, hs, h2⟩
    rw [validate_mem_name p, hb] at hmem
    cases hmem

theorem name_rule_correct_witness :
    (nameMsg ∈ validateForm ⟨some " a ", some "15", none⟩ ∧
      (submitHandler 2 ⟨some " a ", some "15", none⟩).write = none) ∧
    nameMsg ∉ validateForm ⟨some "Asha", some "15", none⟩ :=
  ⟨(name_rule_correct ⟨some " a ", some "15", none⟩ 2).1
      (Or.inr ⟨" a ", rfl, by decide⟩),
   (name_rule_correct ⟨some "Asha", some "15", none⟩ 2).2 "Asha" rfl
      (by decide)⟩

/-- Claim C5: the email rule. An absent or empty email produces no email
error; a non-empty email that does not decompose as
`nonwhitespace@nonwhitespace.nonwhitespace` (the language of the source
regex, by `emailMatch_iff`) puts the email error message in the error list
and the submit handler writes no join record. -/
theorem email_rule_correct (p : Payload) (t : Nat) :
    ((p.email = none ∨ p.email = some "") → emailMsg ∉ validateForm p) ∧
    (∀ s, p.email = some s → s ≠ "" → ¬ SpecEmailPat s →
      emailMsg ∈ validateForm p ∧ (submitHandler t p).write = none) := by
  constructor
  · intro h hmem
    rw [validate_mem_email p] at hmem
    rcases h with h | h <;> rw [h] at hmem <;> simp [emailBad] at hmem
  · intro s hs hne hpat
    have hm : emailMatch s = false := by
      cases hm : emailMatch s
      · rfl
      · exact absurd ((emailMatch_iff s).mp hm) hpat
    have hbad : emailBad p.email = true := by
      rw [hs]
      simp [emailBad, hm, hne]
    have hmem : emailMsg ∈ validateForm p := (validate_mem_email p).mpr hbad
    refine ⟨hmem, ?_⟩
    have hne2 : validateForm p ≠ [] := by
      intro he; rw [he] at hmem; exact List.not_mem_nil _ hmem
    rw [submitHandler_of_errors t p hne2]

theorem email_rule_correct_witness :
    emailMsg ∉ validateForm ⟨some "Asha", some "15", none⟩ ∧
    (emailMsg ∈ validateForm ⟨some "Asha", some "15", some "nope"⟩ ∧
      (submitHandler 4 ⟨some "Asha", some "15", some "nope"⟩).write = none) :=
  ⟨(email_rule_correct ⟨some "Asha", some "15", none⟩ 4).1 (Or.inl rfl),
   (email_rule_correct ⟨some "Asha", some "15", some "nope"⟩ 4).2 "nope" rfl
      (by decide)
      (fun hp => absurd ((emailMatch_iff "nope").mpr hp) (by decide))⟩

/-- Claim C6: on any validation failure, the submit handler shows the
space-joined concatenation of all failing rules' messages at once, marks
it as an error, writes no join record, and schedules no modal close (the
modal stays open in its visible state). -/
theorem invalid_submit_rejected (p : Payload) (t : Nat)
    (h : validateForm p ≠ []) :
    submitHandler t p =
      ⟨String.intercalate " " (validateForm p), true, none, none, none⟩ :=
  submitHandler_of_errors t p h

theorem invalid_submit_rejected_witness :
    submitHandler 3 ⟨none, none, none⟩ =
      ⟨"Please enter a valid name. Age must be between 13 and 19.",
       true, none, none, none⟩ := by
  rw [invalid_submit_rejected ⟨none, none, none⟩ 3 (by decide)]
  decide

/-- Claim C7: on a valid submission at time `t`, the handler shows
"Submitting...", and its 900 ms callback writes the join record — the
submitted trimmed name together with the write instant `t + 900` rendered
as an ISO-8601 string — to storage, shows the confirmation message, and
schedules the modal close a further 1400 ms later. -/
theorem valid_submit_persists (f : RawForm) (nm : String) (t : Nat)
    (hn : f.name = some nm) (hv : validateForm (buildPayload f) = []) :
    submitHandler t (buildPayload f) =
      ⟨"Submitting...", false,
       some (t + 900, ⟨jsTrim nm, toISOString (t + 900)⟩),
       some (t + 900, "Welcome aboard! Check your dashboard for gigs."),
       some (t + 900 + 1400)⟩ := by
  simp only [submitHandler, hv, List.isEmpty_nil, if_true]
  simp [buildPayload, hn]

theorem valid_submit_persists_witness :
    validateForm (buildPayload ⟨some "Asha", some "15", some ""⟩) = [] ∧
    submitHandler 0 (buildPayload ⟨some "Asha", some "15", some ""⟩) =
      ⟨"Submitting...", false,
       some (900, ⟨"Asha", "1970-01-01T00:00:00.900Z"⟩),
       some (900, "Welcome aboard! Check your dashboard for gigs."),
       some 2300⟩ := by
  refine ⟨by decide, ?_⟩
  rw [valid_submit_persists ⟨some "Asha", some "15", some ""⟩ "Asha" 0 rfl
    (by decide)]
  decide

end Funngro
